import Mathlib

/-!
Shallow embedding of `hook.go` of logrus-clickhouse-hook.

The development follows the source file `hook.go`:

* `buildRows` turns records (`map[string]interface{}`) into positional rows;
* `persist` performs one multi-row insert through the external ClickHouse
  client (`clickhouse.BuildMultiInsert`, `Query.Exec`), which is a parameter
  of the model (`Driver`);
* `Hook.Save`, `Hook.Fire`, `AsyncHook.SaveBatch`, the level accessors;
* `AsyncHook.fire`, the control loop, as a transition function over the cases
  of its two `select` statements, together with the caller-facing
  `AsyncHook.Flush` and `AsyncHook.Close`.

Conventions. A Go slice is a `List`; the nil slice and the empty slice are both
`[]` (they have the same `len`), except for `Hook.levels`, whose nil-ness the
code tests, which is an `Option`. Output written through the package logger is
not part of the state, except the errors that `fire` hands to `log.Error`.
-/

namespace ClickHouseHook

/-! ## Data model -/

/-- Value of type `interface{}` stored in a record: `nil` or a scalar. -/
inductive Value where
  | nil
  | str (s : String)
  | int (n : Int)
  | bool (b : Bool)
deriving DecidableEq, Repr

/-- Record `map[string]interface{}`, as an association list; a key is looked up
at its first occurrence. -/
abbrev Fields := List (String × Value)

/-- Map index expression `field[column]`: the stored value, or the zero value
`nil` of `interface{}` when the key is absent. -/
def Fields.get (field : Fields) (column : String) : Value :=
  match field.lookup column with
  | some v => v
  | none => Value.nil

/-- Row of values, `clickhouse.Row`. -/
abbrev Row := List Value

/-- Sequence of rows, `clickhouse.Rows`. -/
abbrev Rows := List Row

/-! ## buildRows -/

/-- Inner loop of `buildRows` over the columns still to visit, with the row
built so far: `break` on the first column whose value is `nil`, otherwise
`row = append(row, field[column])`. -/
def buildRow (field : Fields) : List String → Row → Row
  | [], row => row
  | column :: columns, row =>
    if field.get column = Value.nil then
      row
    else
      buildRow field columns (row ++ [field.get column])

/-- Outer loop of `buildRows` over the records still to visit, with the rows
built so far: `row := clickhouse.Row{}`, the inner loop, then
`rows = append(rows, row)`. -/
def buildRowsFrom (columns : List String) : List Fields → Rows → Rows
  | [], rows => rows
  | field :: fields, rows =>
    buildRowsFrom columns fields (rows ++ [buildRow field columns []])

/-- Function `buildRows(columns, fields)`: the named result `rows` starts nil. -/
def buildRows (columns : List String) (fields : List Fields) : Rows :=
  buildRowsFrom columns fields []

/-- Record has a non-nil value for every declared column. -/
def WellFormed (columns : List String) (field : Fields) : Prop :=
  ∀ column ∈ columns, field.get column ≠ Value.nil

instance (columns : List String) (field : Fields) : Decidable (WellFormed columns field) := by
  unfold WellFormed; infer_instance

/-! ## The external ClickHouse client -/

/-- Client library `github.com/mintance/go-clickhouse`, as far as `hook.go`
uses it. `BuildMultiInsert(table, columns, rows)` returns a query or an error;
`query.Exec(connection)` acts on the store behind the connection and returns
`nil` (`none`) or an error. Both are parameters: every theorem below holds for
every client. -/
structure Driver (Query Err Store : Type) where
  BuildMultiInsert : String → List String → Rows → Except Err Query
  Exec : Query → Store → Option Err × Store

/-- Call made through the client. -/
inductive Call (Query : Type) where
  | BuildMultiInsert (table : String) (columns : List String) (rows : Rows)
  | Exec (query : Query)
deriving DecidableEq, Repr

/-- Connection `*clickhouse.Conn`: the state of the store it leads to, and
(ghost) the calls made through the client so far, oldest first. -/
structure Connection (Query Store : Type) where
  store : Store
  calls : List (Call Query)
deriving DecidableEq, Repr

/-- Configuration struct `ClickHouse`. -/
structure ClickHouse where
  Db : String
  Table : String
  Host : String
  Port : String
  Columns : List String
  User : String
  Password : String
deriving DecidableEq, Repr

/-- Severity `logrus.Level`, the six levels `hook.go` names. -/
inductive Level where
  | PanicLevel
  | FatalLevel
  | ErrorLevel
  | WarnLevel
  | InfoLevel
  | DebugLevel
deriving DecidableEq, Repr

/-- Log entry `logrus.Entry`, as far as `hook.go` reads it. -/
structure Entry where
  Data : Fields
  Level : Level
  Message : String
deriving DecidableEq, Repr

/-- Struct `Hook`; `levels` is `none` for the nil slice. -/
structure Hook (Query Store : Type) where
  ClickHouse : ClickHouse
  connection : Connection Query Store
  levels : Option (List Level)
deriving DecidableEq, Repr

/-- Struct `AsyncHook`: the embedded `Hook`, the counter of the wait group
`flushWg`, and (ghost) the arguments of the `SaveBatch` calls so far, oldest
first. The channels `bus`, `flush`, `halt` and the ticker appear as the events
of the control loop. -/
structure AsyncHook (Query Store : Type) extends Hook Query Store where
  flushWg : Int
  saved : List (List Fields)
deriving DecidableEq, Repr

/-! ## Writing -/

/-- Function `persist(config, connection, rows)`. -/
def persist {Query Err Store : Type} (d : Driver Query Err Store) (config : ClickHouse)
    (connection : Connection Query Store) (rows : Rows) :
    Option Err × Connection Query Store :=
  if rows.length = 0 then
    (none, connection)
  else
    match d.BuildMultiInsert (config.Db ++ "." ++ config.Table) config.Columns rows with
    | Except.error err =>
      (some err,
        { connection with
          calls := connection.calls ++
            [Call.BuildMultiInsert (config.Db ++ "." ++ config.Table) config.Columns rows] })
    | Except.ok query =>
      ((d.Exec query connection.store).1,
        { store := (d.Exec query connection.store).2
          calls := connection.calls ++
            [Call.BuildMultiInsert (config.Db ++ "." ++ config.Table) config.Columns rows,
             Call.Exec query] })

/-- Method `(hook *Hook) Save(field)`. -/
def Hook.Save {Query Err Store : Type} (d : Driver Query Err Store) (hook : Hook Query Store)
    (field : Fields) : Option Err × Hook Query Store :=
  let rows := buildRows hook.ClickHouse.Columns [field]
  let r := persist d hook.ClickHouse hook.connection rows
  (r.1, { hook with connection := r.2 })

/-- Method `(hook *Hook) Fire(entry)`. -/
def Hook.Fire {Query Err Store : Type} (d : Driver Query Err Store) (hook : Hook Query Store)
    (entry : Entry) : Option Err × Hook Query Store :=
  Hook.Save d hook entry.Data

/-- Method `(hook *AsyncHook) SaveBatch(fields)`. -/
def AsyncHook.SaveBatch {Query Err Store : Type} (d : Driver Query Err Store)
    (hook : AsyncHook Query Store) (fields : List Fields) :
    Option Err × AsyncHook Query Store :=
  let rows := buildRows hook.ClickHouse.Columns fields
  let r := persist d hook.ClickHouse hook.connection rows
  (r.1, { hook with connection := r.2, saved := hook.saved ++ [fields] })

/-! ## Levels -/

/-- Method `(hook *Hook) SetLevels(lvs)`. -/
def Hook.SetLevels {Query Store : Type} (hook : Hook Query Store)
    (lvs : Option (List Level)) : Hook Query Store :=
  { hook with levels := lvs }

/-- Method `(hook *AsyncHook) SetLevels(lvs)`. -/
def AsyncHook.SetLevels {Query Store : Type} (hook : AsyncHook Query Store)
    (lvs : Option (List Level)) : AsyncHook Query Store :=
  { hook with levels := lvs }

/-- Method `(hook *Hook) Levels()`. -/
def Hook.Levels {Query Store : Type} (hook : Hook Query Store) : Option (List Level) :=
  match hook.levels with
  | none =>
    some [Level.PanicLevel, Level.FatalLevel, Level.ErrorLevel, Level.WarnLevel,
      Level.InfoLevel, Level.DebugLevel]
  | some lvs => some lvs

/-- Method `(hook *AsyncHook) Levels()`. -/
def AsyncHook.Levels {Query Store : Type} (hook : AsyncHook Query Store) :
    Option (List Level) :=
  match hook.levels with
  | none =>
    some [Level.PanicLevel, Level.FatalLevel, Level.ErrorLevel, Level.WarnLevel,
      Level.InfoLevel, Level.DebugLevel]
  | some lvs => some lvs

/-! ## The control loop `fire` -/

/-- Where the goroutine that runs `fire` stands: at its `select` statements
(between two iterations of the `for` loop), inside the case `<-hook.halt`, or
past `return`. -/
inductive Control where
  | select
  | halt
  | returned
deriving DecidableEq, Repr

/-- State of the engine: the hook, the local variable `buffer` of `fire`, the
position of the goroutine that runs `fire`, and the errors handed to
`log.Error` by `fire`, oldest first. -/
structure Loop (Query Err Store : Type) where
  hook : AsyncHook Query Store
  buffer : List Fields
  control : Control
  logged : List Err
deriving DecidableEq, Repr

/-- Result of a blocking call: the caller went on (`done`) or stays blocked for
good (`blocked`), with the state of the engine reached. -/
inductive Outcome (σ : Type) where
  | done (s : σ)
  | blocked (s : σ)
deriving DecidableEq, Repr

/-- State reached by a blocking call. -/
def Outcome.state {σ : Type} : Outcome σ → σ
  | Outcome.done s => s
  | Outcome.blocked s => s

/-- Statements `err := hook.SaveBatch(buffer); if err != nil { log.Error(err) };
buffer = buffer[:0]`, which `fire` runs at each of its flushes. -/
def flushBuffer {Query Err Store : Type} (d : Driver Query Err Store)
    (s : Loop Query Err Store) : Loop Query Err Store :=
  let r := AsyncHook.SaveBatch d s.hook s.buffer
  match r.1 with
  | some err => { s with hook := r.2, logged := s.logged ++ [err], buffer := [] }
  | none => { s with hook := r.2, buffer := [] }

/-- Case `fields := <-hook.bus` (the same statements in both `select`s):
`buffer = append(buffer, fields)`, and a flush when
`len(buffer) >= BufferSize`. -/
def busCase {Query Err Store : Type} (d : Driver Query Err Store) (BufferSize : Int)
    (s : Loop Query Err Store) (fields : Fields) : Loop Query Err Store :=
  let s1 := { s with buffer := s.buffer ++ [fields] }
  if (s1.buffer.length : Int) ≥ BufferSize then
    flushBuffer d s1
  else
    s1

/-- Case `<-hook.Ticker.C` of the second `select`. -/
def tickerCase {Query Err Store : Type} (d : Driver Query Err Store)
    (s : Loop Query Err Store) : Loop Query Err Store :=
  flushBuffer d s

/-- Case `<-hook.flush` of the second `select`: the flush, then
`hook.flushWg.Done()`. -/
def flushCase {Query Err Store : Type} (d : Driver Query Err Store)
    (s : Loop Query Err Store) : Loop Query Err Store :=
  let s1 := flushBuffer d s
  { s1 with hook := { s1.hook with flushWg := s1.hook.flushWg - 1 } }

/-- Method `(hook *AsyncHook) Flush()`, run by any goroutine:
`hook.flushWg.Add(1)`; `hook.flush <- true`; `hook.flushWg.Wait()`.
The channel `flush` is unbuffered and its only receive is the case `<-hook.flush`
of `fire`, so the send goes through exactly when the goroutine of `fire` is at
its `select`; that goroutine then runs the case. `Wait` returns when the counter
is zero. -/
def AsyncHook.Flush {Query Err Store : Type} (d : Driver Query Err Store)
    (s : Loop Query Err Store) : Outcome (Loop Query Err Store) :=
  let s1 := { s with hook := { s.hook with flushWg := s.hook.flushWg + 1 } }
  match s1.control with
  | Control.select =>
    let s2 := flushCase d s1
    if s2.hook.flushWg = 0 then Outcome.done s2 else Outcome.blocked s2
  | Control.halt => Outcome.blocked s1
  | Control.returned => Outcome.blocked s1

/-- Case `<-hook.halt` of the second `select`: `hook.Flush()`, called by the
goroutine of `fire` itself, then `return`, on which the deferred
`hook.SaveBatch(buffer)` runs; its argument was evaluated at the `defer`
statement, where `buffer` is nil. -/
def haltCase {Query Err Store : Type} (d : Driver Query Err Store)
    (s : Loop Query Err Store) : Loop Query Err Store :=
  match AsyncHook.Flush d { s with control := Control.halt } with
  | Outcome.blocked s1 => s1
  | Outcome.done s1 =>
    { s1 with hook := (AsyncHook.SaveBatch d s1.hook []).2, control := Control.returned }

/-- Method `(hook *AsyncHook) Close()`: `hook.halt <- true`. The channel `halt`
is unbuffered and its only receive is the case `<-hook.halt` of `fire`; `Close`
returns as soon as the value is received. -/
def AsyncHook.Close {Query Err Store : Type} (d : Driver Query Err Store)
    (s : Loop Query Err Store) : Outcome (Loop Query Err Store) :=
  match s.control with
  | Control.select => Outcome.done (haltCase d s)
  | Control.halt => Outcome.blocked s
  | Control.returned => Outcome.blocked s

/-- What one iteration of the `for` loop of `fire` meets: a record in the first
`select` (`eager`), or, in the second one, a record, a tick, the send of a
caller of `Flush()`, the send of a caller of `Close()`. -/
inductive Event where
  | eager (fields : Fields)
  | bus (fields : Fields)
  | ticker
  | flush
  | halt
deriving DecidableEq, Repr

/-- One iteration of the `for` loop of `fire` on the given event. A record or a
tick is taken only by a goroutine at its `select`; the events `flush` and `halt`
are whole calls of `Flush()` and `Close()` by another goroutine. -/
def step {Query Err Store : Type} (d : Driver Query Err Store) (BufferSize : Int)
    (s : Loop Query Err Store) : Event → Loop Query Err Store
  | Event.eager fields =>
    match s.control with
    | Control.select => busCase d BufferSize s fields
    | Control.halt => s
    | Control.returned => s
  | Event.bus fields =>
    match s.control with
    | Control.select => busCase d BufferSize s fields
    | Control.halt => s
    | Control.returned => s
  | Event.ticker =>
    match s.control with
    | Control.select => tickerCase d s
    | Control.halt => s
    | Control.returned => s
  | Event.flush => (AsyncHook.Flush d s).state
  | Event.halt => (AsyncHook.Close d s).state

/-- State at the entry of `fire`, as `NewAsyncHook` starts it: the wait group
`wg` at zero, `var buffer` nil, nothing saved or logged yet. -/
def start {Query Err Store : Type} (hook : Hook Query Store) : Loop Query Err Store :=
  { hook := { toHook := hook, flushWg := 0, saved := [] }
    buffer := []
    control := Control.select
    logged := [] }

/-- Function `NewHook(clickHouse)`, given what `getStorage(clickHouse)` returns
(the connection, or the error of the ping). -/
def NewHook {Query Err Store : Type} (clickHouse : ClickHouse)
    (storage : Except Err (Connection Query Store)) : Except Err (Hook Query Store) :=
  match storage with
  | Except.error err => Except.error err
  | Except.ok storage =>
    Except.ok { ClickHouse := clickHouse, connection := storage, levels := none }

/-- Function `NewAsyncHook(clickHouse)`, given what `getStorage(clickHouse)`
returns: the hook, with `go hook.fire()` started. -/
def NewAsyncHook {Query Err Store : Type} (clickHouse : ClickHouse)
    (storage : Except Err (Connection Query Store)) : Except Err (Loop Query Err Store) :=
  match storage with
  | Except.error err => Except.error err
  | Except.ok storage =>
    Except.ok (start { ClickHouse := clickHouse, connection := storage, levels := none })

/-- Iterations of the `for` loop of `fire` from the state `s`, one for each
event, in order. -/
def iterate {Query Err Store : Type} (d : Driver Query Err Store) (BufferSize : Int)
    (s : Loop Query Err Store) (events : List Event) : Loop Query Err Store :=
  events.foldl (step d BufferSize) s

/-- Method `(hook *AsyncHook) fire()`, from its entry, on a sequence of events,
one for each iteration of its `for` loop. -/
def fire {Query Err Store : Type} (d : Driver Query Err Store) (BufferSize : Int)
    (hook : Hook Query Store) (events : List Event) : Loop Query Err Store :=
  iterate d BufferSize (start hook) events

/-- Record that an event hands to the loop, if any. -/
def Event.record : Event → Option Fields
  | Event.eager fields => some fields
  | Event.bus fields => some fields
  | Event.ticker => none
  | Event.flush => none
  | Event.halt => none

/-- Records of a sequence of events, in order. -/
def records (events : List Event) : List Fields :=
  events.filterMap Event.record

/-! ## A sample client -/

/-- Query of the sample client: the table, the columns and the rows. -/
structure SampleQuery where
  table : String
  columns : List String
  rows : Rows
deriving DecidableEq, Repr

/-- Store of the sample client: how many of the next `Exec` calls fail, and the
rows written so far. -/
structure SampleStore where
  failures : Nat
  written : Rows
deriving DecidableEq, Repr

/-- Sample client for evaluating the model: `BuildMultiInsert` refuses an empty
column list and a row whose length is not the number of columns; `Exec` fails
while `failures` is positive, and otherwise writes the rows. -/
def sampleDriver : Driver SampleQuery String SampleStore where
  BuildMultiInsert := fun table columns rows =>
    if columns.length = 0 then
      Except.error "rows and cols cannot be empty"
    else if rows.all (fun row => row.length = columns.length) then
      Except.ok { table := table, columns := columns, rows := rows }
    else
      Except.error "Amount of row items does not match column count"
  Exec := fun query store =>
    match store.failures with
    | 0 => (none, { store with written := store.written ++ query.rows })
    | n + 1 => (some "write failed", { store with failures := n })

/-- Sample hook on the table `logs.nginx_logs` with the columns `a`, `b`. -/
def sampleHook (failures : Nat) : Hook SampleQuery SampleStore where
  ClickHouse :=
    { Db := "logs", Table := "nginx_logs", Host := "clickhouse-server", Port := "8123"
      Columns := ["a", "b"], User := "default", Password := "" }
  connection := { store := { failures := failures, written := [] }, calls := [] }
  levels := none

/-- Sample record with the values `n` and `n + 1` for `a` and `b`. -/
def sampleRecord (n : Int) : Fields :=
  [("a", Value.int n), ("b", Value.int (n + 1))]

end ClickHouseHook

namespace ClickHouseHook

/-! ## Row construction -/

theorem buildRow_acc (field : Fields) (columns : List String) (row : Row) :
    buildRow field columns row = row ++ buildRow field columns [] := by
  induction columns generalizing row with
  | nil => simp [buildRow]
  | cons column columns ih =>
    by_cases h : field.get column = Value.nil
    · simp [buildRow, h]
    · simp only [buildRow, h, if_false, List.nil_append]
      rw [ih (row ++ [field.get column]), ih [field.get column]]
      simp

theorem buildRow_eq_takeWhile (field : Fields) (columns : List String) :
    buildRow field columns [] =
      (columns.takeWhile (fun column => decide (field.get column ≠ Value.nil))).map field.get := by
  induction columns with
  | nil => simp [buildRow]
  | cons column columns ih =>
    by_cases h : field.get column = Value.nil
    · simp [buildRow, h, List.takeWhile]
    · simp only [buildRow, h, if_false, List.nil_append, List.takeWhile, ne_eq, not_false_eq_true,
        decide_True, List.map_cons]
      rw [buildRow_acc, ih]
      simp

theorem buildRow_wellFormed (field : Fields) (columns : List String)
    (h : WellFormed columns field) : buildRow field columns [] = columns.map field.get := by
  rw [buildRow_eq_takeWhile]
  congr 1
  rw [List.takeWhile_eq_self_iff]
  intro column hc
  simpa using h column hc

theorem buildRow_congr (f g : Fields) (columns : List String)
    (h : ∀ column ∈ columns, f.get column = g.get column) :
    buildRow f columns [] = buildRow g columns [] := by
  induction columns with
  | nil => simp [buildRow]
  | cons column columns ih =>
    have hc : f.get column = g.get column := h column (List.mem_cons_self _ _)
    have ht : buildRow f columns [] = buildRow g columns [] :=
      ih (fun c hm => h c (List.mem_cons_of_mem _ hm))
    by_cases hn : g.get column = Value.nil
    · simp [buildRow, hc, hn]
    · simp only [buildRow, hc, hn, if_false, List.nil_append]
      rw [buildRow_acc f, buildRow_acc g, ht]

theorem buildRowsFrom_eq (columns : List String) (fields : List Fields) (rows : Rows) :
    buildRowsFrom columns fields rows =
      rows ++ fields.map (fun field => buildRow field columns []) := by
  induction fields generalizing rows with
  | nil => simp [buildRowsFrom]
  | cons field fields ih => simp [buildRowsFrom, ih]

theorem buildRows_eq_map (columns : List String) (fields : List Fields) :
    buildRows columns fields = fields.map (fun field => buildRow field columns []) := by
  simp [buildRows, buildRowsFrom_eq]

theorem buildRows_length (columns : List String) (fields : List Fields) :
    (buildRows columns fields).length = fields.length := by
  simp [buildRows_eq_map]

theorem buildRows_nil (columns : List String) : buildRows columns [] = [] := rfl

theorem Fields.get_eq_nil_iff (field : Fields) (column : String) :
    field.get column = Value.nil ↔
      field.lookup column = none ∨ field.lookup column = some Value.nil := by
  unfold Fields.get
  cases h : field.lookup column with
  | none => simp
  | some v => simp

/-- C10. `buildRows(cols, fs)` returns one row for each record of `fs`, in order
(so `len(fs)` rows), and the row of a record is the list of its values for the
longest prefix of `cols` whose names all have a non-nil value in the record; a
name has no non-nil value exactly when it is absent or mapped to nil. -/
theorem buildRows_longest_prefix (columns : List String) (fields : List Fields) :
    buildRows columns fields =
        fields.map (fun field =>
          (columns.takeWhile (fun column => decide (field.get column ≠ Value.nil))).map
            field.get)
      ∧ (buildRows columns fields).length = fields.length
      ∧ ∀ (field : Fields) (column : String),
          field.get column = Value.nil ↔
            field.lookup column = none ∨ field.lookup column = some Value.nil := by
  refine ⟨?_, buildRows_length columns fields, Fields.get_eq_nil_iff⟩
  rw [buildRows_eq_map]
  exact List.map_congr_left (fun field _ => buildRow_eq_takeWhile field columns)

/-- C7. For a record of the list that has a non-nil value for every declared
column, the row that `buildRows` yields at the position of the record is the
list of the values of the declared columns, in column order: it has
`len(cols)` values and its `i`-th value is the value of `cols[i]`. Two records
that agree on the declared columns give the same rows. -/
theorem buildRows_wellFormed_row (columns : List String) (fields : List Fields) (k : Nat)
    (field : Fields) (hk : fields[k]? = some field) (hw : WellFormed columns field) :
    (buildRows columns fields)[k]? = some (columns.map field.get)
      ∧ (columns.map field.get).length = columns.length
      ∧ (∀ (i : Nat) (column : String), columns[i]? = some column →
          (columns.map field.get)[i]? = some (field.get column))
      ∧ ∀ other : Fields, (∀ column ∈ columns, field.get column = other.get column) →
          buildRows columns [other] = buildRows columns [field] := by
  refine ⟨?_, by simp, ?_, ?_⟩
  · rw [buildRows_eq_map, List.getElem?_map, hk]
    simp [buildRow_wellFormed field columns hw]
  · intro i column hi
    simp [List.getElem?_map, hi]
  · intro other h
    simp [buildRows_eq_map, buildRow_congr field other columns h]

/-- Witness for C7: the second of two records, with an extra field `c`. -/
theorem buildRows_wellFormed_row_witness :
    WellFormed ["a", "b"] [("c", Value.bool true), ("b", Value.str "x"), ("a", Value.int 2)]
      ∧ (buildRows ["a", "b"]
          [[("a", Value.int 1)],
           [("c", Value.bool true), ("b", Value.str "x"), ("a", Value.int 2)]])[1]?
        = some [Value.int 2, Value.str "x"] :=
  ⟨by decide, (buildRows_wellFormed_row ["a", "b"]
    [[("a", Value.int 1)], [("c", Value.bool true), ("b", Value.str "x"), ("a", Value.int 2)]]
    1 [("c", Value.bool true), ("b", Value.str "x"), ("a", Value.int 2)] rfl (by decide)).1⟩

/-- C5, evaluated on the code: for the columns `a`, `b` and a batch whose second
record lacks `b`, `buildRows` yields a row for that record too (the values read
before the missing column), so the rows handed to the write are not the rows of
the well-formed records alone. -/
theorem buildRows_keeps_malformed_record :
    buildRows ["a", "b"] [[("a", Value.int 1), ("b", Value.int 2)], [("a", Value.int 3)]]
        = [[Value.int 1, Value.int 2], [Value.int 3]]
      ∧ ¬ WellFormed ["a", "b"] [("a", Value.int 3)]
      ∧ buildRows ["a", "b"] [[("a", Value.int 1), ("b", Value.int 2)], [("a", Value.int 3)]]
        ≠ buildRows ["a", "b"] [[("a", Value.int 1), ("b", Value.int 2)]] := by
  decide

/-! ## Writing -/

theorem persist_nil {Query Err Store : Type} (d : Driver Query Err Store) (config : ClickHouse)
    (connection : Connection Query Store) : persist d config connection [] = (none, connection) := by
  simp [persist]

theorem persist_cons {Query Err Store : Type} (d : Driver Query Err Store) (config : ClickHouse)
    (connection : Connection Query Store) (row : Row) (rows : Rows) :
    persist d config connection (row :: rows) =
      match d.BuildMultiInsert (config.Db ++ "." ++ config.Table) config.Columns (row :: rows) with
      | Except.error err =>
        (some err,
          { connection with
            calls := connection.calls ++
              [Call.BuildMultiInsert (config.Db ++ "." ++ config.Table) config.Columns
                (row :: rows)] })
      | Except.ok query =>
        ((d.Exec query connection.store).1,
          { store := (d.Exec query connection.store).2
            calls := connection.calls ++
              [Call.BuildMultiInsert (config.Db ++ "." ++ config.Table) config.Columns
                (row :: rows),
               Call.Exec query] }) := by
  simp [persist]

/-- C8. `Hook.Save` builds the row sequence of the single record (one row) and
makes exactly one write attempt with it: one `BuildMultiInsert` on the table
`Db.Table`, the declared columns and that row sequence, followed, when a query
was built, by one `Exec` of that query on the connection. It returns the error
of the attempt unchanged (the error of `BuildMultiInsert`, or else what `Exec`
returned, `nil` included) and touches nothing else of the hook. `Hook.Fire`
returns what `Save` returns for `entry.Data`. -/
theorem Save_one_write_attempt {Query Err Store : Type} (d : Driver Query Err Store)
    (hook : Hook Query Store) (field : Fields) :
    (buildRows hook.ClickHouse.Columns [field]).length = 1
      ∧ (Hook.Save d hook field).2.connection.calls =
          hook.connection.calls ++
            Call.BuildMultiInsert (hook.ClickHouse.Db ++ "." ++ hook.ClickHouse.Table)
              hook.ClickHouse.Columns (buildRows hook.ClickHouse.Columns [field]) ::
            (match d.BuildMultiInsert (hook.ClickHouse.Db ++ "." ++ hook.ClickHouse.Table)
                hook.ClickHouse.Columns (buildRows hook.ClickHouse.Columns [field]) with
              | Except.error _ => []
              | Except.ok query => [Call.Exec query])
      ∧ (Hook.Save d hook field).1 =
          (match d.BuildMultiInsert (hook.ClickHouse.Db ++ "." ++ hook.ClickHouse.Table)
              hook.ClickHouse.Columns (buildRows hook.ClickHouse.Columns [field]) with
            | Except.error err => some err
            | Except.ok query => (d.Exec query hook.connection.store).1)
      ∧ (Hook.Save d hook field).2.connection.store =
          (match d.BuildMultiInsert (hook.ClickHouse.Db ++ "." ++ hook.ClickHouse.Table)
              hook.ClickHouse.Columns (buildRows hook.ClickHouse.Columns [field]) with
            | Except.error _ => hook.connection.store
            | Except.ok query => (d.Exec query hook.connection.store).2)
      ∧ (Hook.Save d hook field).2.ClickHouse = hook.ClickHouse
      ∧ (Hook.Save d hook field).2.levels = hook.levels
      ∧ ∀ entry : Entry, Hook.Fire d hook entry = Hook.Save d hook entry.Data := by
  have hrows : buildRows hook.ClickHouse.Columns [field]
      = [buildRow field hook.ClickHouse.Columns []] := by simp [buildRows_eq_map]
  refine ⟨by simp [hrows], ?_, ?_, ?_, rfl, rfl, fun _ => rfl⟩
  all_goals
    simp only [Hook.Save, hrows, persist_cons]
    cases d.BuildMultiInsert (hook.ClickHouse.Db ++ "." ++ hook.ClickHouse.Table)
      hook.ClickHouse.Columns [buildRow field hook.ClickHouse.Columns []] <;> simp

/-! ## Levels -/

/-- C9. For `Hook` and for `AsyncHook`: `Levels()` on a hook whose `levels` is
nil (which is how `NewHook` and `NewAsyncHook` return it, and how
`SetLevels(nil)` leaves it) returns the six severities Panic, Fatal, Error,
Warn, Info, Debug in that order; after `SetLevels(l)` with a non-nil `l` it
returns `l`; and `SetLevels` leaves every other field of the hook as it was. -/
theorem Levels_default_and_set {Query Err Store : Type} (hook : Hook Query Store)
    (async : AsyncHook Query Store) (l : List Level) :
    (hook.levels = none → hook.Levels =
        some [Level.PanicLevel, Level.FatalLevel, Level.ErrorLevel, Level.WarnLevel,
          Level.InfoLevel, Level.DebugLevel])
      ∧ (async.levels = none → async.Levels =
        some [Level.PanicLevel, Level.FatalLevel, Level.ErrorLevel, Level.WarnLevel,
          Level.InfoLevel, Level.DebugLevel])
      ∧ (∀ (clickHouse : ClickHouse) (storage : Connection Query Store)
          (fresh : Hook Query Store),
          (NewHook clickHouse (Except.ok storage) : Except Err (Hook Query Store))
            = Except.ok fresh →
          fresh.Levels =
            some [Level.PanicLevel, Level.FatalLevel, Level.ErrorLevel, Level.WarnLevel,
              Level.InfoLevel, Level.DebugLevel])
      ∧ (∀ (clickHouse : ClickHouse) (storage : Connection Query Store)
          (fresh : Loop Query Err Store),
          NewAsyncHook clickHouse (Except.ok storage) = Except.ok fresh →
          fresh.hook.Levels =
            some [Level.PanicLevel, Level.FatalLevel, Level.ErrorLevel, Level.WarnLevel,
              Level.InfoLevel, Level.DebugLevel])
      ∧ (hook.SetLevels none).Levels =
        some [Level.PanicLevel, Level.FatalLevel, Level.ErrorLevel, Level.WarnLevel,
          Level.InfoLevel, Level.DebugLevel]
      ∧ (async.SetLevels none).Levels =
        some [Level.PanicLevel, Level.FatalLevel, Level.ErrorLevel, Level.WarnLevel,
          Level.InfoLevel, Level.DebugLevel]
      ∧ (hook.SetLevels (some l)).Levels = some l
      ∧ (async.SetLevels (some l)).Levels = some l
      ∧ (∀ lvs, hook.SetLevels lvs = { hook with levels := lvs })
      ∧ (∀ lvs, (hook.SetLevels lvs).ClickHouse = hook.ClickHouse
          ∧ (hook.SetLevels lvs).connection = hook.connection)
      ∧ (∀ lvs, (async.SetLevels lvs).ClickHouse = async.ClickHouse
          ∧ (async.SetLevels lvs).connection = async.connection
          ∧ (async.SetLevels lvs).flushWg = async.flushWg
          ∧ (async.SetLevels lvs).saved = async.saved) := by
  refine ⟨?_, ?_, ?_, ?_, rfl, rfl, rfl, rfl, fun _ => rfl, fun _ => ⟨rfl, rfl⟩,
    fun _ => ⟨rfl, rfl, rfl, rfl⟩⟩
  · intro h; simp [Hook.Levels, h]
  · intro h; simp [AsyncHook.Levels, h]
  · intro clickHouse storage fresh h
    simp only [NewHook, Except.ok.injEq] at h
    subst h
    rfl
  · intro clickHouse storage fresh h
    simp only [NewAsyncHook, Except.ok.injEq] at h
    subst h
    rfl

/-- Witness for C9: the sample hook, whose `levels` is nil, and the hooks that
`NewHook` and `NewAsyncHook` return on the sample configuration. -/
theorem Levels_default_and_set_witness :
    (sampleHook 0).levels = none
      ∧ (sampleHook 0).Levels =
        some [Level.PanicLevel, Level.FatalLevel, Level.ErrorLevel, Level.WarnLevel,
          Level.InfoLevel, Level.DebugLevel]
      ∧ (start (sampleHook 0) : Loop SampleQuery String SampleStore).hook.Levels =
        some [Level.PanicLevel, Level.FatalLevel, Level.ErrorLevel, Level.WarnLevel,
          Level.InfoLevel, Level.DebugLevel]
      ∧ (NewHook (sampleHook 0).ClickHouse (Except.ok (sampleHook 0).connection)
          : Except String (Hook SampleQuery SampleStore)) = Except.ok (sampleHook 0)
      ∧ (NewAsyncHook (sampleHook 0).ClickHouse (Except.ok (sampleHook 0).connection)
          : Except String (Loop SampleQuery String SampleStore))
        = Except.ok (start (sampleHook 0)) :=
  have h := @Levels_default_and_set SampleQuery String SampleStore (sampleHook 0)
    (start (sampleHook 0) : Loop SampleQuery String SampleStore).hook []
  ⟨rfl, h.1 rfl, h.2.1 rfl, rfl, rfl⟩

/-! ## The control loop -/

section loop
variable {Query Err Store : Type}

theorem flushBuffer_buffer (d : Driver Query Err Store) (s : Loop Query Err Store) :
    (flushBuffer d s).buffer = [] := by
  unfold flushBuffer; dsimp only; split <;> rfl

theorem flushBuffer_control (d : Driver Query Err Store) (s : Loop Query Err Store) :
    (flushBuffer d s).control = s.control := by
  unfold flushBuffer; dsimp only; split <;> rfl

theorem flushBuffer_hook (d : Driver Query Err Store) (s : Loop Query Err Store) :
    (flushBuffer d s).hook = (AsyncHook.SaveBatch d s.hook s.buffer).2 := by
  unfold flushBuffer; dsimp only; split <;> rfl

theorem flushBuffer_logged (d : Driver Query Err Store) (s : Loop Query Err Store) :
    (flushBuffer d s).logged =
      s.logged ++ (match (AsyncHook.SaveBatch d s.hook s.buffer).1 with
        | some err => [err]
        | none => []) := by
  unfold flushBuffer; dsimp only; split <;> simp [*]

theorem SaveBatch_saved (d : Driver Query Err Store) (hook : AsyncHook Query Store)
    (fields : List Fields) :
    (AsyncHook.SaveBatch d hook fields).2.saved = hook.saved ++ [fields] := rfl

theorem SaveBatch_flushWg (d : Driver Query Err Store) (hook : AsyncHook Query Store)
    (fields : List Fields) :
    (AsyncHook.SaveBatch d hook fields).2.flushWg = hook.flushWg := rfl

theorem SaveBatch_nil (d : Driver Query Err Store) (hook : AsyncHook Query Store) :
    AsyncHook.SaveBatch d hook [] = (none, { hook with saved := hook.saved ++ [[]] }) := by
  simp [AsyncHook.SaveBatch, buildRows_nil, persist_nil]

theorem busCase_below (d : Driver Query Err Store) (BufferSize : Int)
    (s : Loop Query Err Store) (fields : Fields)
    (h : (s.buffer.length : Int) + 1 < BufferSize) :
    busCase d BufferSize s fields = { s with buffer := s.buffer ++ [fields] } := by
  have : ¬ ((s.buffer ++ [fields]).length : Int) ≥ BufferSize := by
    simp only [List.length_append, List.length_singleton]; push_cast; omega
  simp only [busCase, this, if_false]

theorem busCase_reach (d : Driver Query Err Store) (BufferSize : Int)
    (s : Loop Query Err Store) (fields : Fields)
    (h : BufferSize ≤ (s.buffer.length : Int) + 1) :
    busCase d BufferSize s fields = flushBuffer d { s with buffer := s.buffer ++ [fields] } := by
  have : ((s.buffer ++ [fields]).length : Int) ≥ BufferSize := by
    simp only [List.length_append, List.length_singleton]; push_cast; omega
  simp only [busCase, this, if_true]

theorem Flush_state_select (d : Driver Query Err Store) (s : Loop Query Err Store)
    (hc : s.control = Control.select) :
    (AsyncHook.Flush d s).state =
      flushCase d { s with hook := { s.hook with flushWg := s.hook.flushWg + 1 } } := by
  simp only [AsyncHook.Flush, hc]
  split <;> rfl

theorem flushCase_buffer (d : Driver Query Err Store) (s : Loop Query Err Store) :
    (flushCase d s).buffer = [] := by
  simp [flushCase, flushBuffer_buffer]

theorem flushCase_control (d : Driver Query Err Store) (s : Loop Query Err Store) :
    (flushCase d s).control = s.control := by
  simp [flushCase, flushBuffer_control]

theorem flushCase_saved (d : Driver Query Err Store) (s : Loop Query Err Store) :
    (flushCase d s).hook.saved = s.hook.saved ++ [s.buffer] := by
  simp [flushCase, flushBuffer_hook, SaveBatch_saved]

theorem flushCase_flushWg (d : Driver Query Err Store) (s : Loop Query Err Store) :
    (flushCase d s).hook.flushWg = s.hook.flushWg - 1 := by
  simp [flushCase, flushBuffer_hook, SaveBatch_flushWg]

theorem flushCase_logged (d : Driver Query Err Store) (s : Loop Query Err Store) :
    (flushCase d s).logged =
      s.logged ++ (match (AsyncHook.SaveBatch d s.hook s.buffer).1 with
        | some err => [err]
        | none => []) := by
  simp [flushCase, flushBuffer_logged]

theorem step_dequeue (d : Driver Query Err Store) (BufferSize : Int)
    (s : Loop Query Err Store) (e : Event) (fields : Fields)
    (hc : s.control = Control.select) (he : e.record = some fields) :
    step d BufferSize s e = busCase d BufferSize s fields := by
  cases e <;> simp [Event.record] at he <;> subst he <;> simp [step, hc]

theorem foldl_step_below (d : Driver Query Err Store) (BufferSize : Int) (es : List Event)
    (s : Loop Query Err Store) (hc : s.control = Control.select)
    (hd : ∀ e ∈ es, e.record.isSome)
    (hl : (s.buffer.length : Int) + (records es).length < BufferSize) :
    es.foldl (step d BufferSize) s = { s with buffer := s.buffer ++ records es } := by
  induction es generalizing s with
  | nil => simp [records]
  | cons e es ih =>
    obtain ⟨fields, he⟩ := Option.isSome_iff_exists.mp (hd e (List.mem_cons_self _ _))
    have hr : records (e :: es) = fields :: records es := by
      simp [records, List.filterMap_cons, he]
    rw [hr] at hl
    simp only [List.length_cons] at hl
    push_cast at hl
    rw [List.foldl_cons, step_dequeue d BufferSize s e fields hc he,
      busCase_below d BufferSize s fields (by omega)]
    have hi := ih { s with buffer := s.buffer ++ [fields] } hc
      (fun x hx => hd x (List.mem_cons_of_mem _ hx))
      (by simp only [List.length_append, List.length_singleton]; push_cast; omega)
    rw [hi, hr]
    simp

theorem step_fifo (d : Driver Query Err Store) (BufferSize : Int)
    (s : Loop Query Err Store) (e : Event)
    (hc : s.control = Control.select) (he : e ≠ Event.halt) :
    (step d BufferSize s e).control = Control.select
      ∧ (step d BufferSize s e).hook.saved.flatten ++ (step d BufferSize s e).buffer =
          s.hook.saved.flatten ++ s.buffer ++ records [e] := by
  have hbus : ∀ fields : Fields,
      (busCase d BufferSize s fields).control = Control.select
        ∧ (busCase d BufferSize s fields).hook.saved.flatten
            ++ (busCase d BufferSize s fields).buffer =
          s.hook.saved.flatten ++ s.buffer ++ [fields] := by
    intro fields
    by_cases h : BufferSize ≤ (s.buffer.length : Int) + 1
    · rw [busCase_reach d BufferSize s fields h]
      simp [flushBuffer_buffer, flushBuffer_control, flushBuffer_hook, SaveBatch_saved, hc]
    · rw [busCase_below d BufferSize s fields (by omega)]
      simp [hc]
  cases e with
  | eager fields => simpa [step, hc, records, Event.record] using hbus fields
  | bus fields => simpa [step, hc, records, Event.record] using hbus fields
  | ticker =>
    simp [step, hc, tickerCase, records, Event.record, flushBuffer_buffer, flushBuffer_control,
      flushBuffer_hook, SaveBatch_saved]
  | flush =>
    simp [step, Flush_state_select d s hc, records, Event.record, flushCase_buffer,
      flushCase_control, flushCase_saved, hc]
  | halt => exact absurd rfl he

theorem foldl_step_fifo (d : Driver Query Err Store) (BufferSize : Int) (es : List Event)
    (s : Loop Query Err Store) (hc : s.control = Control.select)
    (hh : ∀ e ∈ es, e ≠ Event.halt) :
    (es.foldl (step d BufferSize) s).control = Control.select
      ∧ (es.foldl (step d BufferSize) s).hook.saved.flatten
          ++ (es.foldl (step d BufferSize) s).buffer =
        s.hook.saved.flatten ++ s.buffer ++ records es := by
  induction es generalizing s with
  | nil => simp [records, hc]
  | cons e es ih =>
    obtain ⟨h1, h2⟩ := step_fifo d BufferSize s e hc (hh e (List.mem_cons_self _ _))
    obtain ⟨h3, h4⟩ := ih (step d BufferSize s e) h1
      (fun x hx => hh x (List.mem_cons_of_mem _ hx))
    refine ⟨by simpa using h3, ?_⟩
    rw [List.foldl_cons, h4, h2]
    simp [records, List.filterMap_cons]
    cases e.record <;> simp

/-- C3. In every state that `fire` reaches from its initial state under a
sequence of queue, timer and explicit-flush events, the record sequences handed
to `SaveBatch` so far, concatenated in call order and followed by the current
batch, are the records dequeued so far, in dequeue order. -/
theorem fifo_no_loss_no_duplication (d : Driver Query Err Store) (BufferSize : Int)
    (hook : Hook Query Store) (events : List Event) (hh : ∀ e ∈ events, e ≠ Event.halt) :
    (fire d BufferSize hook events).hook.saved.flatten ++ (fire d BufferSize hook events).buffer
      = records events := by
  have h := (foldl_step_fifo d BufferSize events (start hook) rfl hh).2
  simpa [fire, iterate, start] using h

theorem records_length (es : List Event) (hd : ∀ e ∈ es, e.record.isSome) :
    (records es).length = es.length := by
  induction es with
  | nil => rfl
  | cons e es ih =>
    obtain ⟨fields, he⟩ := Option.isSome_iff_exists.mp (hd e (List.mem_cons_self _ _))
    have hi := ih (fun x hx => hd x (List.mem_cons_of_mem _ hx))
    simp only [records] at hi
    simp [records, List.filterMap_cons, he, hi]

theorem iterate_below (d : Driver Query Err Store) (BufferSize : Int)
    (s : Loop Query Err Store) (es : List Event) (hc : s.control = Control.select)
    (hb : s.buffer = []) (hd : ∀ e ∈ es, e.record.isSome)
    (hl : ((records es).length : Int) < BufferSize) :
    iterate d BufferSize s es =
      { hook := s.hook, buffer := records es, control := Control.select, logged := s.logged } := by
  have h := foldl_step_below d BufferSize es s hc hd (by simpa [hb] using hl)
  simpa [iterate, hb, hc] using h

theorem iterate_reach (d : Driver Query Err Store) (BufferSize : Int)
    (s : Loop Query Err Store) (es : List Event) (hc : s.control = Control.select)
    (hb : s.buffer = []) (hd : ∀ e ∈ es, e.record.isSome) (hN : 1 ≤ BufferSize)
    (hl : ((records es).length : Int) = BufferSize) :
    iterate d BufferSize s es =
      flushBuffer d
        { hook := s.hook, buffer := records es, control := Control.select, logged := s.logged } := by
  rcases List.eq_nil_or_concat es with rfl | ⟨init, last, rfl⟩
  · simp [records] at hl; omega
  · rw [List.concat_eq_append] at hd hl ⊢
    have hdi : ∀ e ∈ init, e.record.isSome := fun e he => hd e (by simp [he])
    obtain ⟨fields, hf⟩ := Option.isSome_iff_exists.mp (hd last (by simp))
    have hr : records (init ++ [last]) = records init ++ [fields] := by
      simp [records, List.filterMap_append, hf]
    rw [hr] at hl ⊢
    simp only [List.length_append, List.length_singleton] at hl
    push_cast at hl
    have hi := iterate_below d BufferSize s init hc hb hdi (by omega)
    unfold iterate at hi ⊢
    rw [List.foldl_append, hi, List.foldl_cons, List.foldl_nil,
      step_dequeue d BufferSize _ last fields rfl hf, busCase_reach]
    simp only
    omega

/-- C2. Threshold trigger. Let the capacity be `N >= 1` and let the loop, at
its `select` with an empty batch, dequeue records only (in either `select`).
Before the `N`-th record nothing is handed to `SaveBatch`, nothing goes through
the client, and the batch holds the records dequeued so far. After the `N`-th
record, `SaveBatch` has been called exactly once, with exactly those `N` records
in order (the connection is as one `persist` of their rows leaves it), the
batch is empty and the loop is at its `select`; no timer, flush or halt event
took part. Fewer than `N` further records then stay in the batch without
another call. -/
theorem threshold_trigger (d : Driver Query Err Store) (BufferSize : Int)
    (s : Loop Query Err Store) (es₁ es₂ : List Event) (hN : 1 ≤ BufferSize)
    (hc : s.control = Control.select) (hb : s.buffer = [])
    (h₁ : ∀ e ∈ es₁, e.record.isSome) (h₂ : ∀ e ∈ es₂, e.record.isSome)
    (hl₁ : ((records es₁).length : Int) = BufferSize)
    (hl₂ : ((records es₂).length : Int) < BufferSize) :
    (∀ es₀ es : List Event, es₁ = es₀ ++ es → es ≠ [] →
        (iterate d BufferSize s es₀).hook = s.hook
          ∧ (iterate d BufferSize s es₀).buffer = records es₀)
      ∧ (iterate d BufferSize s es₁).hook.saved = s.hook.saved ++ [records es₁]
      ∧ (iterate d BufferSize s es₁).buffer = []
      ∧ (iterate d BufferSize s es₁).control = Control.select
      ∧ (iterate d BufferSize s es₁).hook.connection =
          (persist d s.hook.ClickHouse s.hook.connection
            (buildRows s.hook.ClickHouse.Columns (records es₁))).2
      ∧ (iterate d BufferSize s (es₁ ++ es₂)).hook = (iterate d BufferSize s es₁).hook
      ∧ (iterate d BufferSize s (es₁ ++ es₂)).buffer = records es₂ := by
  have hr := iterate_reach d BufferSize s es₁ hc hb h₁ hN hl₁
  have hc₁ : (iterate d BufferSize s es₁).control = Control.select := by
    rw [hr, flushBuffer_control]
  have hb₁ : (iterate d BufferSize s es₁).buffer = [] := by
    rw [hr, flushBuffer_buffer]
  have h12 : iterate d BufferSize s (es₁ ++ es₂) =
      { hook := (iterate d BufferSize s es₁).hook
        buffer := records es₂
        control := Control.select
        logged := (iterate d BufferSize s es₁).logged } := by
    have h := iterate_below d BufferSize (iterate d BufferSize s es₁) es₂ hc₁ hb₁ h₂ hl₂
    simp only [iterate, List.foldl_append] at h ⊢
    exact h
  refine ⟨?_, ?_, hb₁, hc₁, ?_, ?_, ?_⟩
  · intro es₀ es he hne
    have h₀ : ∀ e ∈ es₀, e.record.isSome := fun e hm => h₁ e (by simp [he, hm])
    have hlen : (records es₀).length < (records es₁).length := by
      rw [records_length es₁ h₁, records_length es₀ h₀, he, List.length_append]
      have := List.length_pos_of_ne_nil hne
      omega
    rw [iterate_below d BufferSize s es₀ hc hb h₀ (by omega)]
    exact ⟨rfl, rfl⟩
  · rw [hr, flushBuffer_hook, SaveBatch_saved]
  · rw [hr, flushBuffer_hook]; rfl
  · rw [h12]
  · rw [h12]

theorem Flush_done (d : Driver Query Err Store) (s : Loop Query Err Store)
    (hc : s.control = Control.select) (hw : s.hook.flushWg = 0) :
    AsyncHook.Flush d s =
      Outcome.done (flushCase d
        { hook := { toHook := s.hook.toHook, flushWg := s.hook.flushWg + 1, saved := s.hook.saved }
          buffer := s.buffer
          control := Control.select
          logged := s.logged }) := by
  simp only [AsyncHook.Flush, hc]
  rw [if_pos]
  rw [flushCase_flushWg]
  simp [hw]

theorem flushBuffer_nil_connection (d : Driver Query Err Store) (s : Loop Query Err Store)
    (hb : s.buffer = []) :
    (flushBuffer d s).hook.connection = s.hook.connection
      ∧ (flushBuffer d s).logged = s.logged := by
  rw [flushBuffer_hook, flushBuffer_logged, hb, SaveBatch_nil]
  simp

theorem flushCase_nil_connection (d : Driver Query Err Store) (s : Loop Query Err Store)
    (hb : s.buffer = []) :
    (flushCase d s).hook.connection = s.hook.connection
      ∧ (flushCase d s).logged = s.logged := by
  have h := flushBuffer_nil_connection d s hb
  simpa [flushCase] using h

theorem haltCase_eq (d : Driver Query Err Store) (s : Loop Query Err Store) :
    haltCase d s =
      { s with
        control := Control.halt
        hook := { s.hook with flushWg := s.hook.flushWg + 1 } } := by
  simp [haltCase, AsyncHook.Flush]

theorem busCase_agree {Query' Err' Store' : Type} (d : Driver Query Err Store)
    (d' : Driver Query' Err' Store') (BufferSize : Int) (s : Loop Query Err Store)
    (s' : Loop Query' Err' Store') (fields : Fields)
    (hb : s.buffer = s'.buffer) (hc : s.control = s'.control)
    (hs : s.hook.saved = s'.hook.saved) (hw : s.hook.flushWg = s'.hook.flushWg) :
    (busCase d BufferSize s fields).buffer = (busCase d' BufferSize s' fields).buffer
      ∧ (busCase d BufferSize s fields).control = (busCase d' BufferSize s' fields).control
      ∧ (busCase d BufferSize s fields).hook.saved = (busCase d' BufferSize s' fields).hook.saved
      ∧ (busCase d BufferSize s fields).hook.flushWg
          = (busCase d' BufferSize s' fields).hook.flushWg := by
  by_cases h : BufferSize ≤ (s.buffer.length : Int) + 1
  · rw [busCase_reach d BufferSize s fields h, busCase_reach d' BufferSize s' fields (hb ▸ h)]
    simp [flushBuffer_buffer, flushBuffer_control, flushBuffer_hook, SaveBatch_saved,
      SaveBatch_flushWg, hb, hc, hs, hw]
  · rw [busCase_below d BufferSize s fields (by omega),
      busCase_below d' BufferSize s' fields (by rw [← hb]; omega)]
    simp [hb, hc, hs, hw]

theorem step_agree {Query' Err' Store' : Type} (d : Driver Query Err Store)
    (d' : Driver Query' Err' Store') (BufferSize : Int) (s : Loop Query Err Store)
    (s' : Loop Query' Err' Store') (e : Event)
    (hb : s.buffer = s'.buffer) (hc : s.control = s'.control)
    (hs : s.hook.saved = s'.hook.saved) (hw : s.hook.flushWg = s'.hook.flushWg) :
    (step d BufferSize s e).buffer = (step d' BufferSize s' e).buffer
      ∧ (step d BufferSize s e).control = (step d' BufferSize s' e).control
      ∧ (step d BufferSize s e).hook.saved = (step d' BufferSize s' e).hook.saved
      ∧ (step d BufferSize s e).hook.flushWg = (step d' BufferSize s' e).hook.flushWg := by
  cases hcs : s.control with
  | select =>
    have hcs' : s'.control = Control.select := by rw [← hc, hcs]
    cases e with
    | eager fields =>
      simpa [step, hcs, hcs'] using busCase_agree d d' BufferSize s s' fields hb hc hs hw
    | bus fields =>
      simpa [step, hcs, hcs'] using busCase_agree d d' BufferSize s s' fields hb hc hs hw
    | ticker =>
      simp [step, hcs, hcs', tickerCase, flushBuffer_buffer, flushBuffer_control,
        flushBuffer_hook, SaveBatch_saved, SaveBatch_flushWg, hb, hs, hw]
    | flush =>
      simp [step, Flush_state_select d s hcs, Flush_state_select d' s' hcs', flushCase_buffer,
        flushCase_control, flushCase_saved, flushCase_flushWg, hb, hcs, hcs', hs, hw]
    | halt =>
      simp [step, AsyncHook.Close, hcs, hcs', haltCase_eq, Outcome.state, hb, hs, hw]
  | halt =>
    have hcs' : s'.control = Control.halt := by rw [← hc, hcs]
    cases e <;>
      simp [step, AsyncHook.Flush, AsyncHook.Close, hcs, hcs', Outcome.state, hb, hs, hw]
  | returned =>
    have hcs' : s'.control = Control.returned := by rw [← hc, hcs]
    cases e <;>
      simp [step, AsyncHook.Flush, AsyncHook.Close, hcs, hcs', Outcome.state, hb, hs, hw]

theorem foldl_step_agree {Query' Err' Store' : Type} (d : Driver Query Err Store)
    (d' : Driver Query' Err' Store') (BufferSize : Int) (es : List Event)
    (s : Loop Query Err Store) (s' : Loop Query' Err' Store')
    (hb : s.buffer = s'.buffer) (hc : s.control = s'.control)
    (hs : s.hook.saved = s'.hook.saved) (hw : s.hook.flushWg = s'.hook.flushWg) :
    (es.foldl (step d BufferSize) s).buffer = (es.foldl (step d' BufferSize) s').buffer
      ∧ (es.foldl (step d BufferSize) s).control = (es.foldl (step d' BufferSize) s').control
      ∧ (es.foldl (step d BufferSize) s).hook.saved
          = (es.foldl (step d' BufferSize) s').hook.saved
      ∧ (es.foldl (step d BufferSize) s).hook.flushWg
          = (es.foldl (step d' BufferSize) s').hook.flushWg := by
  induction es generalizing s s' with
  | nil => exact ⟨hb, hc, hs, hw⟩
  | cons e es ih =>
    obtain ⟨h1, h2, h3, h4⟩ := step_agree d d' BufferSize s s' e hb hc hs hw
    simpa using ih (step d BufferSize s e) (step d' BufferSize s' e) h1 h2 h3 h4

theorem foldl_step_halted (d : Driver Query Err Store) (BufferSize : Int) (es : List Event)
    (s : Loop Query Err Store) (hc : s.control = Control.halt) :
    (es.foldl (step d BufferSize) s).control = Control.halt
      ∧ (es.foldl (step d BufferSize) s).buffer = s.buffer
      ∧ (es.foldl (step d BufferSize) s).hook.saved = s.hook.saved
      ∧ (es.foldl (step d BufferSize) s).hook.connection = s.hook.connection := by
  induction es generalizing s with
  | nil => exact ⟨hc, rfl, rfl, rfl⟩
  | cons e es ih =>
    have h : (step d BufferSize s e).control = Control.halt
        ∧ (step d BufferSize s e).buffer = s.buffer
        ∧ (step d BufferSize s e).hook.saved = s.hook.saved
        ∧ (step d BufferSize s e).hook.connection = s.hook.connection := by
      cases e <;> simp [step, AsyncHook.Flush, AsyncHook.Close, hc, Outcome.state]
    obtain ⟨h1, h2, h3, h4⟩ := ih (step d BufferSize s e) h.1
    exact ⟨by simpa using h1, by simpa [h.2.1] using h2, by simpa [h.2.2.1] using h3,
      by simpa [h.2.2.2] using h4⟩

/-- X1. A halt request is never followed by a flush. With the loop at its
`select` holding the batch `B`, `Close()` returns to its caller at once, and the
loop then stays inside the case `<-hook.halt` whatever events follow: it never
returns, `B` is never handed to `SaveBatch`, nothing goes through the client,
and every later call of `Flush()` blocks. -/
theorem halt_never_flushes (d : Driver Query Err Store) (BufferSize : Int)
    (s : Loop Query Err Store) (es : List Event) (hc : s.control = Control.select) :
    AsyncHook.Close d s = Outcome.done (iterate d BufferSize s [Event.halt])
      ∧ (iterate d BufferSize s (Event.halt :: es)).control = Control.halt
      ∧ (iterate d BufferSize s (Event.halt :: es)).buffer = s.buffer
      ∧ (iterate d BufferSize s (Event.halt :: es)).hook.saved = s.hook.saved
      ∧ (iterate d BufferSize s (Event.halt :: es)).hook.connection = s.hook.connection
      ∧ ∃ t, AsyncHook.Flush d (iterate d BufferSize s (Event.halt :: es))
          = Outcome.blocked t := by
  have h : step d BufferSize s Event.halt =
      { s with
        control := Control.halt
        hook := { s.hook with flushWg := s.hook.flushWg + 1 } } := by
    simp [step, AsyncHook.Close, hc, haltCase_eq, Outcome.state]
  have hcl : AsyncHook.Close d s = Outcome.done (iterate d BufferSize s [Event.halt]) := by
    simp [iterate, step, AsyncHook.Close, hc, Outcome.state]
  have hh : (iterate d BufferSize s (Event.halt :: es)).control = Control.halt
      ∧ (iterate d BufferSize s (Event.halt :: es)).buffer = s.buffer
      ∧ (iterate d BufferSize s (Event.halt :: es)).hook.saved = s.hook.saved
      ∧ (iterate d BufferSize s (Event.halt :: es)).hook.connection = s.hook.connection := by
    simp only [iterate, List.foldl_cons]
    rw [h]
    exact foldl_step_halted d BufferSize es _ rfl
  refine ⟨hcl, hh.1, hh.2.1, hh.2.2.1, hh.2.2.2, ?_⟩
  simp only [AsyncHook.Flush, hh.1]
  exact ⟨_, rfl⟩

/-- C4. Failure resilience. Take the loop at its `select`, any client and so
any outcome of the write (`nil` or an error). After a flush attempt (a record
that brings the batch to the capacity, a tick, or an explicit flush) the batch
is empty and the loop is at its `select` again. The error of the attempt is
appended to the log of `fire` and goes nowhere else: `Flush()` returns to its
caller, with the wait group at zero. And what follows does not depend on the
outcomes: under the same later events, an engine on any other client that
starts with the same batch, at the same place, with the same `SaveBatch` calls
behind it and the same wait-group counter, holds the same batch, has handed the
same record sequences to `SaveBatch`, stands at the same place and has the same
counter. -/
theorem failure_resilience {Query' Err' Store' : Type} (d : Driver Query Err Store)
    (d' : Driver Query' Err' Store') (BufferSize : Int) (s : Loop Query Err Store)
    (hc : s.control = Control.select) (hw : s.hook.flushWg = 0) :
    (∀ (e : Event) (fields : Fields), e.record = some fields →
        BufferSize ≤ (s.buffer.length : Int) + 1 →
        (step d BufferSize s e).buffer = []
          ∧ (step d BufferSize s e).control = Control.select
          ∧ (step d BufferSize s e).hook.saved = s.hook.saved ++ [s.buffer ++ [fields]]
          ∧ (step d BufferSize s e).logged =
              s.logged ++ (match (AsyncHook.SaveBatch d s.hook (s.buffer ++ [fields])).1 with
                | some err => [err]
                | none => []))
      ∧ ((step d BufferSize s Event.ticker).buffer = []
          ∧ (step d BufferSize s Event.ticker).control = Control.select
          ∧ (step d BufferSize s Event.ticker).hook.saved = s.hook.saved ++ [s.buffer]
          ∧ (step d BufferSize s Event.ticker).logged =
              s.logged ++ (match (AsyncHook.SaveBatch d s.hook s.buffer).1 with
                | some err => [err]
                | none => []))
      ∧ ((step d BufferSize s Event.flush).buffer = []
          ∧ (step d BufferSize s Event.flush).control = Control.select
          ∧ (step d BufferSize s Event.flush).hook.saved = s.hook.saved ++ [s.buffer]
          ∧ (step d BufferSize s Event.flush).logged =
              s.logged ++ (match (AsyncHook.SaveBatch d s.hook s.buffer).1 with
                | some err => [err]
                | none => [])
          ∧ (step d BufferSize s Event.flush).hook.flushWg = 0
          ∧ AsyncHook.Flush d s = Outcome.done (step d BufferSize s Event.flush))
      ∧ ∀ s' : Loop Query' Err' Store',
          s.buffer = s'.buffer → s.control = s'.control → s.hook.saved = s'.hook.saved →
          s.hook.flushWg = s'.hook.flushWg →
          ∀ events : List Event,
            (iterate d BufferSize s events).buffer = (iterate d' BufferSize s' events).buffer
              ∧ (iterate d BufferSize s events).control
                  = (iterate d' BufferSize s' events).control
              ∧ (iterate d BufferSize s events).hook.saved
                  = (iterate d' BufferSize s' events).hook.saved
              ∧ (iterate d BufferSize s events).hook.flushWg
                  = (iterate d' BufferSize s' events).hook.flushWg := by
  refine ⟨?_, ?_, ?_, ?_⟩
  · intro e fields he hle
    rw [step_dequeue d BufferSize s e fields hc he, busCase_reach d BufferSize s fields hle]
    simp [flushBuffer_buffer, flushBuffer_control, flushBuffer_hook, flushBuffer_logged,
      SaveBatch_saved, hc]
  · simp [step, hc, tickerCase, flushBuffer_buffer, flushBuffer_control, flushBuffer_hook,
      flushBuffer_logged, SaveBatch_saved]
  · have hd := Flush_done d s hc hw
    have hst : step d BufferSize s Event.flush = (AsyncHook.Flush d s).state := rfl
    rw [hst, hd]
    simp [Outcome.state, flushCase_buffer, flushCase_control, flushCase_saved,
      flushCase_flushWg, flushCase_logged, hw]
    rfl
  · intro s' hb hc' hs hw' events
    exact foldl_step_agree d d' BufferSize events s s' hb hc' hs hw'

/-- C6. An empty flush is a no-op. `persist` on an empty row sequence and
`SaveBatch` on an empty batch return `nil` and leave the connection as it was:
no `BuildMultiInsert`, no `Exec`. Hence a tick or an explicit flush taken with
an empty batch writes nothing, logs nothing and leaves the batch empty; two
calls of `Flush()` in a row on an empty batch both return, each with the wait
group back at zero, and neither writes; and after any `Flush()` that returned,
a second one with no record dequeued in between writes nothing. -/
theorem empty_flush_noop (d : Driver Query Err Store) (BufferSize : Int) :
    (∀ (config : ClickHouse) (connection : Connection Query Store),
        persist d config connection [] = (none, connection))
      ∧ (∀ hook : AsyncHook Query Store,
          (AsyncHook.SaveBatch d hook []).1 = none
            ∧ (AsyncHook.SaveBatch d hook []).2.connection = hook.connection)
      ∧ (∀ s : Loop Query Err Store, s.control = Control.select → s.buffer = [] →
          (step d BufferSize s Event.ticker).hook.connection = s.hook.connection
            ∧ (step d BufferSize s Event.ticker).logged = s.logged
            ∧ (step d BufferSize s Event.ticker).buffer = []
            ∧ (step d BufferSize s Event.ticker).control = Control.select
            ∧ (step d BufferSize s Event.flush).hook.connection = s.hook.connection
            ∧ (step d BufferSize s Event.flush).logged = s.logged
            ∧ (step d BufferSize s Event.flush).buffer = []
            ∧ (step d BufferSize s Event.flush).control = Control.select)
      ∧ (∀ s : Loop Query Err Store, s.control = Control.select → s.buffer = [] →
          s.hook.flushWg = 0 →
          ∃ s₁ s₂ : Loop Query Err Store,
            AsyncHook.Flush d s = Outcome.done s₁ ∧ AsyncHook.Flush d s₁ = Outcome.done s₂
              ∧ s₁.hook.flushWg = 0 ∧ s₂.hook.flushWg = 0
              ∧ s₁.buffer = [] ∧ s₂.buffer = []
              ∧ s₁.hook.connection = s.hook.connection
              ∧ s₂.hook.connection = s.hook.connection
              ∧ s₁.logged = s.logged ∧ s₂.logged = s.logged)
      ∧ (∀ s : Loop Query Err Store, s.control = Control.select → s.hook.flushWg = 0 →
          ∃ s₁ s₂ : Loop Query Err Store,
            AsyncHook.Flush d s = Outcome.done s₁ ∧ AsyncHook.Flush d s₁ = Outcome.done s₂
              ∧ s₁.hook.flushWg = 0 ∧ s₂.hook.flushWg = 0
              ∧ s₁.buffer = [] ∧ s₂.buffer = []
              ∧ s₂.hook.connection = s₁.hook.connection
              ∧ s₂.logged = s₁.logged) := by
  have two : ∀ s : Loop Query Err Store, s.control = Control.select → s.hook.flushWg = 0 →
      ∃ s₁ s₂ : Loop Query Err Store,
        AsyncHook.Flush d s = Outcome.done s₁ ∧ AsyncHook.Flush d s₁ = Outcome.done s₂
          ∧ s₁.hook.flushWg = 0 ∧ s₂.hook.flushWg = 0
          ∧ s₁.buffer = [] ∧ s₂.buffer = []
          ∧ s₂.hook.connection = s₁.hook.connection
          ∧ s₂.logged = s₁.logged
          ∧ (s.buffer = [] → s₁.hook.connection = s.hook.connection ∧ s₁.logged = s.logged) := by
    intro s hc hw
    have h1 := Flush_done d s hc hw
    have c1 := flushCase_control d
      { hook := { toHook := s.hook.toHook, flushWg := s.hook.flushWg + 1, saved := s.hook.saved }
        buffer := s.buffer
        control := Control.select
        logged := s.logged }
    have w1 : (flushCase d
      { hook := { toHook := s.hook.toHook, flushWg := s.hook.flushWg + 1, saved := s.hook.saved }
        buffer := s.buffer
        control := Control.select
        logged := s.logged }).hook.flushWg = 0 := by
      rw [flushCase_flushWg]; simp [hw]
    have b1 := flushCase_buffer d
      { hook := { toHook := s.hook.toHook, flushWg := s.hook.flushWg + 1, saved := s.hook.saved }
        buffer := s.buffer
        control := Control.select
        logged := s.logged }
    have h2 := Flush_done d _ c1 w1
    refine ⟨_, _, h1, h2, w1, ?_, b1, flushCase_buffer d _, ?_, ?_, ?_⟩
    · rw [flushCase_flushWg]; simp [w1]
    · exact (flushCase_nil_connection d _ (by exact b1)).1
    · exact (flushCase_nil_connection d _ (by exact b1)).2
    · intro hb
      exact flushCase_nil_connection d _ hb
  refine ⟨persist_nil d, ?_, ?_, ?_, ?_⟩
  · intro hook
    rw [SaveBatch_nil]
    exact ⟨rfl, rfl⟩
  · intro s hc hb
    have ht := flushBuffer_nil_connection d s hb
    have hf := flushCase_nil_connection d
      { s with hook := { s.hook with flushWg := s.hook.flushWg + 1 } } hb
    refine ⟨?_, ?_, ?_, ?_, ?_, ?_, ?_, ?_⟩
    · simpa [step, hc, tickerCase] using ht.1
    · simpa [step, hc, tickerCase] using ht.2
    · simp [step, hc, tickerCase, flushBuffer_buffer]
    · simp [step, hc, tickerCase, flushBuffer_control]
    · simpa [step, Flush_state_select d s hc] using hf.1
    · simpa [step, Flush_state_select d s hc] using hf.2
    · simp [step, Flush_state_select d s hc, flushCase_buffer]
    · simp [step, Flush_state_select d s hc, flushCase_control, hc]
  · intro s hc hb hw
    obtain ⟨s₁, s₂, h1, h2, h3, h4, h5, h6, h7, h8, h9⟩ := two s hc hw
    obtain ⟨h10, h11⟩ := h9 hb
    exact ⟨s₁, s₂, h1, h2, h3, h4, h5, h6, h10, h7.trans h10, h11, h8.trans h11⟩
  · intro s hc hw
    obtain ⟨s₁, s₂, h1, h2, h3, h4, h5, h6, h7, h8, _⟩ := two s hc hw
    exact ⟨s₁, s₂, h1, h2, h3, h4, h5, h6, h7, h8⟩

end loop

/-- Witness for C2: capacity 3 and the records `r1` to `r5`, dequeued in order
by the engine as `NewAsyncHook` starts it: one write of `r1`, `r2`, `r3`, and
`r4`, `r5` left in the batch. -/
theorem threshold_trigger_witness :
    (fire sampleDriver 3 (sampleHook 0)
        [Event.eager (sampleRecord 1), Event.bus (sampleRecord 2), Event.eager (sampleRecord 3),
         Event.bus (sampleRecord 4), Event.eager (sampleRecord 5)]).hook.saved
        = [[sampleRecord 1, sampleRecord 2, sampleRecord 3]]
      ∧ (fire sampleDriver 3 (sampleHook 0)
        [Event.eager (sampleRecord 1), Event.bus (sampleRecord 2), Event.eager (sampleRecord 3),
         Event.bus (sampleRecord 4), Event.eager (sampleRecord 5)]).buffer
        = [sampleRecord 4, sampleRecord 5]
      ∧ (fire sampleDriver 3 (sampleHook 0)
        [Event.eager (sampleRecord 1), Event.bus (sampleRecord 2), Event.eager (sampleRecord 3),
         Event.bus (sampleRecord 4), Event.eager (sampleRecord 5)]).hook.connection.store.written
        = [[Value.int 1, Value.int 2], [Value.int 2, Value.int 3], [Value.int 3, Value.int 4]] :=
  have h := threshold_trigger sampleDriver 3 (start (sampleHook 0))
    [Event.eager (sampleRecord 1), Event.bus (sampleRecord 2), Event.eager (sampleRecord 3)]
    [Event.bus (sampleRecord 4), Event.eager (sampleRecord 5)]
    (by decide) rfl rfl (by decide) (by decide) (by decide) (by decide)
  ⟨h.2.2.2.2.2.1 ▸ h.2.1, h.2.2.2.2.2.2, by decide⟩

/-- C1, evaluated on the code: capacity 3, the records `r1`, `r2` in the batch,
then `Close()`. `Close()` returns, but the loop stays inside the case
`<-hook.halt`, in the send of its own `Flush()` call (wait group at 1): it has
not returned, `SaveBatch` was never called, nothing went through the client,
and `r1`, `r2` are still in the batch; later ticks and flush requests change
none of this. -/
theorem halt_blocks_without_final_flush :
    AsyncHook.Close sampleDriver
        (fire sampleDriver 3 (sampleHook 0)
          [Event.bus (sampleRecord 1), Event.bus (sampleRecord 2)])
        = Outcome.done (fire sampleDriver 3 (sampleHook 0)
          [Event.bus (sampleRecord 1), Event.bus (sampleRecord 2), Event.halt])
      ∧ (fire sampleDriver 3 (sampleHook 0)
          [Event.bus (sampleRecord 1), Event.bus (sampleRecord 2), Event.halt]).control
        = Control.halt
      ∧ (fire sampleDriver 3 (sampleHook 0)
          [Event.bus (sampleRecord 1), Event.bus (sampleRecord 2), Event.halt]).hook.flushWg = 1
      ∧ (fire sampleDriver 3 (sampleHook 0)
          [Event.bus (sampleRecord 1), Event.bus (sampleRecord 2), Event.halt]).hook.saved = []
      ∧ (fire sampleDriver 3 (sampleHook 0)
          [Event.bus (sampleRecord 1), Event.bus (sampleRecord 2), Event.halt]).hook.connection.calls
        = []
      ∧ (fire sampleDriver 3 (sampleHook 0)
          [Event.bus (sampleRecord 1), Event.bus (sampleRecord 2), Event.halt]).buffer
        = [sampleRecord 1, sampleRecord 2]
      ∧ (fire sampleDriver 3 (sampleHook 0)
          [Event.bus (sampleRecord 1), Event.bus (sampleRecord 2), Event.halt, Event.ticker,
           Event.flush, Event.ticker]).control = Control.halt
      ∧ (fire sampleDriver 3 (sampleHook 0)
          [Event.bus (sampleRecord 1), Event.bus (sampleRecord 2), Event.halt, Event.ticker,
           Event.flush, Event.ticker]).hook.saved = []
      ∧ (fire sampleDriver 3 (sampleHook 0)
          [Event.bus (sampleRecord 1), Event.bus (sampleRecord 2), Event.halt, Event.ticker,
           Event.flush, Event.ticker]).hook.connection.calls = [] := by
  decide

/-- Witness for C3: capacity 2, a threshold flush, a tick and an explicit flush
among three records. -/
theorem fifo_no_loss_no_duplication_witness :
    (fire sampleDriver 2 (sampleHook 0)
        [Event.eager (sampleRecord 1), Event.ticker, Event.bus (sampleRecord 2),
         Event.eager (sampleRecord 3), Event.flush, Event.bus (sampleRecord 4)]).hook.saved.flatten
      ++ (fire sampleDriver 2 (sampleHook 0)
        [Event.eager (sampleRecord 1), Event.ticker, Event.bus (sampleRecord 2),
         Event.eager (sampleRecord 3), Event.flush, Event.bus (sampleRecord 4)]).buffer
      = [sampleRecord 1, sampleRecord 2, sampleRecord 3, sampleRecord 4] :=
  fifo_no_loss_no_duplication sampleDriver 2 (sampleHook 0)
    [Event.eager (sampleRecord 1), Event.ticker, Event.bus (sampleRecord 2),
     Event.eager (sampleRecord 3), Event.flush, Event.bus (sampleRecord 4)] (by decide)

/-- Witness for C4: a client whose next `Exec` fails, with `r1` in the batch
when the tick comes: the batch is emptied, the error is logged, and the run
goes on (`r2`, then an explicit flush) as with a client that does not fail. -/
theorem failure_resilience_witness :
    (fire sampleDriver 3 (sampleHook 1) [Event.bus (sampleRecord 1)]).control = Control.select
      ∧ (fire sampleDriver 3 (sampleHook 1) [Event.bus (sampleRecord 1)]).hook.flushWg = 0
      ∧ (step sampleDriver 3 (fire sampleDriver 3 (sampleHook 1) [Event.bus (sampleRecord 1)])
          Event.ticker).buffer = []
      ∧ (step sampleDriver 3 (fire sampleDriver 3 (sampleHook 1) [Event.bus (sampleRecord 1)])
          Event.ticker).logged = ["write failed"]
      ∧ (iterate sampleDriver 3 (fire sampleDriver 3 (sampleHook 1) [Event.bus (sampleRecord 1)])
          [Event.ticker, Event.bus (sampleRecord 2), Event.flush]).hook.saved
        = (iterate sampleDriver 3
          (fire sampleDriver 3 (sampleHook 0) [Event.bus (sampleRecord 1)])
          [Event.ticker, Event.bus (sampleRecord 2), Event.flush]).hook.saved
      ∧ (iterate sampleDriver 3 (fire sampleDriver 3 (sampleHook 1) [Event.bus (sampleRecord 1)])
          [Event.ticker, Event.bus (sampleRecord 2), Event.flush]).hook.saved
        = [[sampleRecord 1], [sampleRecord 2]]
      ∧ (iterate sampleDriver 3 (fire sampleDriver 3 (sampleHook 1) [Event.bus (sampleRecord 1)])
          [Event.ticker, Event.bus (sampleRecord 2),
           Event.flush]).hook.connection.store.written = [[Value.int 2, Value.int 3]] :=
  have h := failure_resilience sampleDriver sampleDriver 3
    (fire sampleDriver 3 (sampleHook 1) [Event.bus (sampleRecord 1)]) (by decide) (by decide)
  ⟨by decide, by decide, h.2.1.1, by decide,
    (h.2.2.2 (fire sampleDriver 3 (sampleHook 0) [Event.bus (sampleRecord 1)])
      (by decide) (by decide) (by decide) (by decide)
      [Event.ticker, Event.bus (sampleRecord 2), Event.flush]).2.2.1,
    by decide, by decide⟩

/-- Witness for X1: the engine with `r1` in its batch takes a halt request,
then a tick and a flush request. -/
theorem halt_never_flushes_witness :
    (iterate sampleDriver 3 (fire sampleDriver 3 (sampleHook 0) [Event.bus (sampleRecord 1)])
        [Event.halt, Event.ticker, Event.flush]).control = Control.halt
      ∧ (iterate sampleDriver 3 (fire sampleDriver 3 (sampleHook 0) [Event.bus (sampleRecord 1)])
        [Event.halt, Event.ticker, Event.flush]).buffer = [sampleRecord 1]
      ∧ (iterate sampleDriver 3 (fire sampleDriver 3 (sampleHook 0) [Event.bus (sampleRecord 1)])
        [Event.halt, Event.ticker, Event.flush]).hook.saved = [] :=
  have h := halt_never_flushes sampleDriver 3
    (fire sampleDriver 3 (sampleHook 0) [Event.bus (sampleRecord 1)])
    [Event.ticker, Event.flush] (by decide)
  ⟨h.2.1, h.2.2.1, h.2.2.2.1⟩

/-- Witness for C6: two calls of `Flush()` in a row on the engine as
`NewAsyncHook` starts it. -/
theorem empty_flush_noop_witness :
    ∃ s₁ s₂ : Loop SampleQuery String SampleStore,
      AsyncHook.Flush sampleDriver (start (sampleHook 0)) = Outcome.done s₁
        ∧ AsyncHook.Flush sampleDriver s₁ = Outcome.done s₂
        ∧ s₁.hook.flushWg = 0 ∧ s₂.hook.flushWg = 0
        ∧ s₁.buffer = [] ∧ s₂.buffer = []
        ∧ s₁.hook.connection = (sampleHook 0).connection
        ∧ s₂.hook.connection = (sampleHook 0).connection
        ∧ s₁.logged = [] ∧ s₂.logged = [] :=
  (empty_flush_noop sampleDriver 3).2.2.2.1 (start (sampleHook 0)) rfl rfl rfl

end ClickHouseHook
